import Mathlib

/-!
# Verification of the `ratelimit` package (sliding-window rate limiter)

Shallow embedding of the PostgreSQL-backed sliding-window rate limiter:
`Limiter.AllowN`, the `rate_limits` store interaction, `Limiter.Cleanup`,
and the once-only cleaner start (`Limiter.StartCleanup`).

Modelling conventions:
* Instants are integers: nanoseconds since the Unix epoch (`time.Time`
  has nanosecond resolution).  Durations (`time.Duration`) are integer
  nanoseconds.
* `time.Time.Truncate` rounds down to a multiple of the duration *since
  Go's zero time* (January 1, year 1 UTC), not since the Unix epoch;
  `unixToInternalNs` is the offset between the two epochs.
* The database is a finite association list of rows
  `(key, window_start, count)`, mirroring the `rate_limits` table with
  primary key `(key, window_start)`.
* The single SQL statement of `AllowN` (`INSERT ... ON CONFLICT DO
  UPDATE ... RETURNING count, (SELECT COALESCE(count,0) ... )`) is
  embedded by `sqlIncrementAndPeek`.  A scalar subquery over zero rows
  yields SQL NULL (the inner `COALESCE` never sees a row), hence the
  `prevCount` field is an `Option Int` with `none` for NULL; `pgx`'s
  `Row.Scan` into a Go `int` fails on NULL, which the embedding models
  as an error result.  The statement's snapshot is taken before the
  insert, so the peek reads the pre-statement store.
* `float64` arithmetic is idealised as exact rational arithmetic: a
  finite float value is kept as an exact integer fraction `frac num den`,
  and the IEEE special values produced by `0/0` and `x/0` are explicit
  constructors.  Rounding of `float64` operations is outside the model.
  Go's `int(f)` conversion truncates toward zero for finite values in
  range and is implementation-defined for NaN/±Inf (amd64 yields
  `math.MinInt64`, modelled by `goIntMin`).  Go's 64-bit `int`
  arithmetic is modelled over unbounded integers, faithful wherever no
  operation leaves the `int64` range; theorems do not assert values
  computed in the wrap-around regime (see `allowNSlow`).
* Observability (tracing spans, Prometheus metrics, logging) is omitted:
  per the package it never changes admission behaviour.
-/

/-- Offset from Go's zero time (Jan 1, year 1 UTC) to the Unix epoch,
in nanoseconds: 62135596800 seconds (Go's `unixToInternal`). -/
def unixToInternalNs : Int := 62135596800 * 1000000000

/-- Go `time.Time.Truncate`: rounds `t` down to a multiple of `d`
since Go's zero time; returns `t` unchanged when `d ≤ 0`.
`t` is nanoseconds since the Unix epoch. -/
def goTruncate (t d : Int) : Int :=
  if d ≤ 0 then t else t - (t + unixToInternalNs) % d

/-- Go `time.Time.UnixMilli`: the instant in milliseconds since the
Unix epoch (floor division of the nanosecond timestamp). -/
def unixMilli (t : Int) : Int := t / 1000000

/-- Go `time.Duration.Milliseconds`: `int64(d) / 1e6`, integer division
truncating toward zero. -/
def durationMillis (d : Int) : Int := d.tdiv 1000000

/-- `Rate` (ratelimit): `Limit` is the maximum number of requests per
window, `Window` the window duration in nanoseconds. -/
structure Rate where
  limit : Int
  window : Int
deriving DecidableEq

/-- `Result` (ratelimit): outcome of a rate limit check.  `resetAt` is
an instant in nanoseconds since the Unix epoch. -/
structure Result where
  allowed : Bool
  limit : Int
  remaining : Int
  resetAt : Int
deriving DecidableEq

/-- The `rate_limits` table: rows `(key, window_start, count)` with
`window_start` in epoch milliseconds, unique on `(key, window_start)`. -/
abbrev Store := List (String × Int × Int)

/-- The `blockedCache` `sync.Map`: cache key ↦ `unblockAt` instant. -/
abbrev BlockCache := List (String × Int)

/-- The mutable state of a `Limiter` touched by `AllowN`/`Cleanup`:
the backing table and the local blocked cache. -/
structure LimiterState where
  store : Store
  blockedCache : BlockCache
deriving DecidableEq

/-- `SELECT count FROM rate_limits WHERE key = k AND window_start = ws`
on the model store (primary key lookup). -/
def lookupRow (s : Store) (k : String) (ws : Int) : Option Int :=
  (s.find? (fun r => r.1 == k && r.2.1 == ws)).map (fun r => r.2.2)

/-- `INSERT ... VALUES (k, ws, n) ON CONFLICT (key, window_start) DO
UPDATE SET count = rate_limits.count + n` on the model store. -/
def upsertAdd (s : Store) (k : String) (ws n : Int) : Store :=
  match s with
  | [] => [(k, ws, n)]
  | r :: rest =>
    if r.1 == k && r.2.1 == ws then (r.1, r.2.1, r.2.2 + n) :: rest
    else r :: upsertAdd rest k ws n

/-- The row produced by the `RETURNING` clause: the post-upsert `count`
and the scalar subquery `(SELECT COALESCE(count, 0) FROM rate_limits
WHERE key = $1 AND window_start = $4)`.  When the subquery matches no
row it produces zero rows, so the scalar result is SQL NULL (`none`) —
the inner `COALESCE` never applies. -/
structure PeekRow where
  count : Int
  prevCount : Option Int
deriving DecidableEq

/-- The single SQL statement of `AllowN`'s slow path, executed on the
store.  The peek subquery is evaluated against the statement's
snapshot, i.e. the store before the insert. -/
def sqlIncrementAndPeek (s : Store) (k : String) (ws pws n : Int) :
    Store × PeekRow :=
  (upsertAdd s k ws n,
   { count := (lookupRow s k ws).getD 0 + n
     prevCount := lookupRow s k pws })

/-- `sync.Map.Load` on the blocked cache. -/
def cacheLoad (c : BlockCache) (k : String) : Option Int :=
  (c.find? (fun e => e.1 == k)).map (fun e => e.2)

/-- `sync.Map.Delete` on the blocked cache. -/
def cacheDelete (c : BlockCache) (k : String) : BlockCache :=
  c.filter (fun e => !(e.1 == k))

/-- `sync.Map.Store` on the blocked cache (last write wins). -/
def cacheStore (c : BlockCache) (k : String) (v : Int) : BlockCache :=
  match c with
  | [] => [(k, v)]
  | e :: rest => if e.1 == k then (k, v) :: rest else e :: cacheStore rest k v

/-- A Go `float64` value, idealised: finite values are exact integer
fractions `num / den` (`den ≠ 0` for every value the program builds),
plus the IEEE special values.  Rounding is outside the model. -/
inductive GoFloat where
  | frac (num den : Int)
  | nan
  | posInf
  | negInf
deriving DecidableEq

/-- `float64(a) / float64(b)` for integer-valued operands: IEEE
division yields NaN for `0/0` and ±Inf for `x/0`, `x ≠ 0`. -/
def goDivInt (a b : Int) : GoFloat :=
  if b = 0 then (if a = 0 then .nan else if 0 < a then .posInf else .negInf)
  else .frac a b

/-- `float64(p) * w` for an integer `p` and a float `w` (IEEE: NaN
propagates; `0 * ±Inf` is NaN). -/
def GoFloat.mulInt (p : Int) : GoFloat → GoFloat
  | .frac a b => .frac (p * a) b
  | .nan => .nan
  | .posInf => if p = 0 then .nan else if 0 < p then .posInf else .negInf
  | .negInf => if p = 0 then .nan else if 0 < p then .negInf else .posInf

/-- The value Go's `int(f)` yields for NaN/±Inf on amd64
(`math.MinInt64`); the Go spec leaves it implementation-defined. -/
def goIntMin : Int := -(2 ^ 63)

/-- Go conversion `int(f)`: truncation toward zero for finite values
(exact in the model), implementation-defined for NaN/±Inf. -/
def GoFloat.toInt : GoFloat → Int
  | .frac a b => a.tdiv b
  | _ => goIntMin

/-- The exact rational value of a finite float, used only in
specifications. -/
def GoFloat.val : GoFloat → ℚ
  | .frac a b => (a : ℚ) / (b : ℚ)
  | _ => 0

/-- `weight := float64(rate.Window-elapsed) / float64(rate.Window)`. -/
def weightOf (window elapsed : Int) : GoFloat :=
  goDivInt (window - elapsed) window

/-- `effectiveCount := currentCount + int(float64(prevCount)*weight)`. -/
def effectiveCountOf (currentCount prevCount : Int) (weight : GoFloat) : Int :=
  currentCount + (GoFloat.mulInt prevCount weight).toInt

/-- Window boundary computation of `AllowN` (lines computing
`windowStart`, `prevWindowStart`, `resetAt` from `now` and
`rate.Window`). -/
def boundaries (now window : Int) : Int × Int × Int :=
  (goTruncate now window, goTruncate now window - window,
   goTruncate now window + window)

/-- `cacheKey := fmt.Sprintf("%s:%d", key, rate.Window.Milliseconds())`. -/
def cacheKeyOf (key : String) (window : Int) : String :=
  key ++ ":" ++ toString (durationMillis window)

/-- The error text `pgx` produces when `Row.Scan` meets a SQL NULL in
an `int` destination (the exact wording is immaterial to the model). -/
def scanNullErr : String := "cannot scan NULL into *int"

/-- Slow path of `AllowN` (store round trip onward).  `dbErr` injects a
transport-level failure of the store call; when the statement itself
executes, the insert has been applied even if scanning the returned row
fails (the call runs on a plain pooled connection, not a transaction).
Returns the call's outcome and the post-call limiter state.
Go's 64-bit `int` arithmetic is modelled over unbounded integers; the
model is faithful exactly where no operation leaves the `int64` range.
In particular `remaining0 := rate.Limit - effectiveCount` wraps in Go
when `effectiveCount` is near `MinInt64` (reachable only through the
NaN conversion of the unvalidated `Window = 0` input), so no theorem
asserts the `Remaining` field in that overflow regime. -/
def allowNSlow (st : LimiterState) (dbErr : Option String) (now : Int)
    (key : String) (rate : Rate) (n : Int)
    (windowStart prevWindowStart resetAt : Int) (cacheKey : String) :
    Except String Result × LimiterState :=
  match dbErr with
  | some e => (.error ("cannot check rate limit: " ++ e), st)
  | none =>
    let res := sqlIncrementAndPeek st.store key (unixMilli windowStart)
      (unixMilli prevWindowStart) n
    match res.2.prevCount with
    | none =>
      (.error ("cannot check rate limit: " ++ scanNullErr),
       { st with store := res.1 })
    | some prevCount =>
      let currentCount := res.2.count
      let elapsed := now - windowStart
      let weight := weightOf rate.window elapsed
      let effectiveCount := effectiveCountOf currentCount prevCount weight
      let allowed := decide (effectiveCount ≤ rate.limit)
      let remaining0 := rate.limit - effectiveCount
      let remaining := if remaining0 < 0 then 0 else remaining0
      let cache2 :=
        if allowed then st.blockedCache
        else cacheStore st.blockedCache cacheKey resetAt
      (.ok { allowed := allowed, limit := rate.limit, remaining := remaining,
             resetAt := resetAt },
       { store := res.1, blockedCache := cache2 })

/-- `Limiter.AllowN`: window boundary computation, blocked-cache fast
path (with lazy expiry), then the slow path against the store. -/
def allowN (st : LimiterState) (dbErr : Option String) (now : Int)
    (key : String) (rate : Rate) (n : Int) :
    Except String Result × LimiterState :=
  let ws := (boundaries now rate.window).1
  let pws := (boundaries now rate.window).2.1
  let resetAt := (boundaries now rate.window).2.2
  let ck := cacheKeyOf key rate.window
  match cacheLoad st.blockedCache ck with
  | some unblockAt =>
    if now < unblockAt then
      (.ok { allowed := false, limit := rate.limit, remaining := 0,
             resetAt := unblockAt }, st)
    else
      allowNSlow { st with blockedCache := cacheDelete st.blockedCache ck }
        dbErr now key rate n ws pws resetAt ck
  | none => allowNSlow st dbErr now key rate n ws pws resetAt ck

/-- `Limiter.Allow`: sugar for `AllowN` with `n = 1`. -/
def allow (st : LimiterState) (dbErr : Option String) (now : Int)
    (key : String) (rate : Rate) :
    Except String Result × LimiterState :=
  allowN st dbErr now key rate 1

/-- `DELETE FROM rate_limits WHERE window_start < cutoff`, returning
the retained rows and the command tag's `RowsAffected`. -/
def deleteOlderThan (s : Store) (cutoff : Int) : Store × Int :=
  (s.filter (fun r => !(r.2.1 < cutoff)),
   ((s.filter (fun r => r.2.1 < cutoff)).length : Int))

/-- `Limiter.Cleanup`: `cutoff := time.Now().Add(-olderThan).UnixMilli()`,
then the bulk delete; returns `rowsDeleted` and the new state. -/
def cleanup (st : LimiterState) (now olderThan : Int) : Int × LimiterState :=
  let cutoff := unixMilli (now - olderThan)
  let res := deleteOlderThan st.store cutoff
  (res.2, { st with store := res.1 })

/-- Phase of the background cleanup task. -/
inductive CleanerPhase where
  | notStarted
  | running
  | stopped
deriving DecidableEq

/-- State backing `StartCleanup`: the `sync.Once` done flag
(`cleanupOnce`) and the phase of the cleanup goroutine. -/
structure CleanerState where
  onceDone : Bool
  phase : CleanerPhase
deriving DecidableEq

/-- `Limiter.StartCleanup`: `cleanupOnce.Do(func() { go runCleanupLoop })`.
`sync.Once.Do` runs the function iff the flag is unset, then sets it. -/
def startCleanup (s : CleanerState) : CleanerState :=
  if s.onceDone then s else { onceDone := true, phase := .running }

/-- Context cancellation observed by `runCleanupLoop`: the loop
returns, moving a running cleaner to stopped. -/
def cancelCleanup (s : CleanerState) : CleanerState :=
  if s.phase = .running then { s with phase := .stopped } else s

/-! ## Helper lemmas -/

theorem goTruncate_pos_eq (now W : Int) (hW : 0 < W) :
    goTruncate now W = now - (now + unixToInternalNs) % W := by
  unfold goTruncate
  rw [if_neg (not_le.mpr hW)]

theorem elapsed_bounds (now W : Int) (hW : 0 < W) :
    0 ≤ now - goTruncate now W ∧ now - goTruncate now W < W := by
  rw [goTruncate_pos_eq now W hW]
  have h1 := Int.emod_nonneg (now + unixToInternalNs) hW.ne'
  have h2 := Int.emod_lt_of_pos (now + unixToInternalNs) hW
  omega

theorem tdiv_floor_of_nonneg (a b : Int) (ha : 0 ≤ a) (hb : 0 < b) :
    a.tdiv b = ⌊(a : ℚ) / (b : ℚ)⌋ := by
  have h := Rat.floor_intCast_div_natCast a b.toNat
  rw [Int.toNat_of_nonneg hb.le] at h
  have hbq : ((b.toNat : ℚ)) = ((b : ℤ) : ℚ) := by
    rw [← Int.cast_natCast, Int.toNat_of_nonneg hb.le]
  rw [hbq] at h
  rw [Int.tdiv_eq_ediv ha hb.le, ← h]

theorem cacheLoad_cacheDelete (c : BlockCache) (k : String) :
    cacheLoad (cacheDelete c k) k = none := by
  unfold cacheLoad cacheDelete
  rw [List.find?_eq_none.mpr]
  · rfl
  · intro x hx
    rcases List.mem_filter.mp hx with ⟨-, h⟩
    simpa using h

theorem cacheLoad_cacheStore (c : BlockCache) (k : String) (v : Int) :
    cacheLoad (cacheStore c k v) k = some v := by
  induction c with
  | nil => simp [cacheStore, cacheLoad]
  | cons e rest ih =>
    unfold cacheStore
    by_cases h : e.1 == k
    · rw [if_pos h]
      simp [cacheLoad]
    · rw [if_neg h]
      unfold cacheLoad at ih ⊢
      rw [List.find?_cons_of_neg _ (by simpa using h)]
      exact ih

/-! ## Claims -/

/-- C2 (amended): for `Window > 0`, `AllowN` computes
`windowStart = now - ((now + Z) mod Window)` where `Z` is the offset
from Go's zero time (Jan 1, year 1 UTC) to the Unix epoch — i.e. the
epoch-nanosecond timestamp truncated to a window boundary *of Go's
zero-time scale*, not of the Unix epoch; the two agree exactly when
`Z mod Window = 0` (all windows dividing 62135596800 s, e.g. whole
seconds dividing a minute, minutes, hours), in which case
`windowStart = floor(now / Window) * Window`.  `prevWindowStart =
windowStart - Window` and `resetAt = windowStart + Window` hold
unconditionally. -/
theorem boundaries_formula (now W : Int) (hW : 0 < W) :
    boundaries now W =
      (now - (now + unixToInternalNs) % W,
       now - (now + unixToInternalNs) % W - W,
       now - (now + unixToInternalNs) % W + W) ∧
    (unixToInternalNs % W = 0 →
      (boundaries now W).1 = W * (now / W)) := by
  have ht := goTruncate_pos_eq now W hW
  constructor
  · unfold boundaries
    rw [ht]
  · intro hz
    obtain ⟨k, hk⟩ := Int.dvd_of_emod_eq_zero hz
    unfold boundaries
    rw [ht, hk, Int.add_mul_emod_self_left]
    have := Int.ediv_add_emod now W
    omega

/-- C2 (counterexample): with a 7-second window the code's
`now.Truncate(rate.Window)` (truncation since Go's zero time) differs
from `floor(now / Window) * Window` in the epoch time scale: at
`now = 1700000000000000000 ns` the code yields windowStart
`1699999997000000000` while the epoch-floor formula yields
`1699999994000000000`. -/
theorem boundaries_ne_epoch_floor :
    (boundaries 1700000000000000000 7000000000).1 ≠
      7000000000 * ((1700000000000000000 : Int) / 7000000000) := by decide

/-- C8: `Cleanup` with cutoff `now - olderThan` (converted to epoch
milliseconds) removes exactly the rows with `window_start < cutoff`:
such rows are gone, rows with `window_start ≥ cutoff` are retained, no
row appears that was not present, and the returned count is exactly
the number of rows removed.  In particular, for `olderThan = 0`, if
every stored row has `window_start` in the past (`< now` in epoch
milliseconds) the whole table is emptied and the full row count is
returned. -/
theorem cleanup_deletes_older (st : LimiterState) (now olderThan : Int) :
    (∀ r ∈ st.store, r.2.1 < unixMilli (now - olderThan) →
      r ∉ (cleanup st now olderThan).2.store) ∧
    (∀ r ∈ st.store, unixMilli (now - olderThan) ≤ r.2.1 →
      r ∈ (cleanup st now olderThan).2.store) ∧
    (∀ r ∈ (cleanup st now olderThan).2.store, r ∈ st.store) ∧
    (cleanup st now olderThan).1 =
      (st.store.length : Int) - ((cleanup st now olderThan).2.store.length : Int) ∧
    (olderThan = 0 → (∀ r ∈ st.store, r.2.1 < unixMilli now) →
      (cleanup st now olderThan).2.store = [] ∧
      (cleanup st now olderThan).1 = (st.store.length : Int)) := by
  unfold cleanup deleteOlderThan
  simp only
  refine ⟨?_, ?_, ?_, ?_, ?_⟩
  · intro r hr hlt hmem
    rcases List.mem_filter.mp hmem with ⟨-, hp⟩
    simp at hp
    omega
  · intro r hr hge
    exact List.mem_filter.mpr ⟨hr, by simp; omega⟩
  · intro r hr
    exact List.mem_of_mem_filter hr
  · have h := List.length_eq_length_filter_add (l := st.store)
      (fun r : String × Int × Int => decide (r.2.1 < unixMilli (now - olderThan)))
    simp only [decide_eq_true_eq] at h ⊢
    omega
  · intro h0 hall
    subst h0
    rw [sub_zero]
    constructor
    · rw [List.filter_eq_nil_iff]
      intro r hr
      simp
      exact hall r hr
    · rw [List.filter_eq_self.mpr]
      intro r hr
      simp
      exact hall r hr

/-- C9: `StartCleanup` starts the background loop at most once per
`Limiter` instance: on a fresh instance (`cleanupOnce` unset, loop not
started) the first call marks the once-flag done and moves the cleaner
to running, any call leaves the once-flag set, and once the flag is
set every further call is a no-op. -/
theorem startCleanup_once_only :
    startCleanup ⟨false, .notStarted⟩ = ⟨true, .running⟩ ∧
    (∀ s : CleanerState, (startCleanup s).onceDone = true) ∧
    (∀ s : CleanerState, s.onceDone = true → startCleanup s = s) := by
  refine ⟨rfl, ?_, ?_⟩
  · intro s
    unfold startCleanup
    by_cases h : s.onceDone
    · rw [if_pos h]; exact h
    · rw [if_neg h]
  · intro s h
    unfold startCleanup
    rw [if_pos h]

/-- C9 (witness): a second call after the first is a no-op. -/
theorem startCleanup_once_only_witness :
    startCleanup (startCleanup ⟨false, .notStarted⟩) =
      startCleanup ⟨false, .notStarted⟩ :=
  startCleanup_once_only.2.2 (startCleanup ⟨false, .notStarted⟩)
    (startCleanup_once_only.2.1 ⟨false, .notStarted⟩)

/-- C3: for a slow-path check with `rate.Window > 0` and a nonnegative
previous-window count (counts are sums of the documented `n ≥ 1`
increments), the admission count satisfies `effectiveCount =
currentCount + floor(prevCount * weight)` where `weight =
(Window - elapsed)/Window`, `elapsed = now - windowStart`, and
`weight ∈ [0, 1]`.  The `float64` arithmetic of the source is
idealised as exact rational arithmetic; `weight` is the finite float
of value `(Window - elapsed)/Window`. -/
theorem effectiveCount_formula (now W currentCount prevCount : Int)
    (hW : 0 < W) (hp : 0 ≤ prevCount) :
    weightOf W (now - goTruncate now W) =
      GoFloat.frac (W - (now - goTruncate now W)) W ∧
    (weightOf W (now - goTruncate now W)).val =
      ((W - (now - goTruncate now W) : Int) : ℚ) / ((W : Int) : ℚ) ∧
    effectiveCountOf currentCount prevCount
        (weightOf W (now - goTruncate now W)) =
      currentCount +
        ⌊(prevCount : ℚ) * (weightOf W (now - goTruncate now W)).val⌋ ∧
    0 ≤ (weightOf W (now - goTruncate now W)).val ∧
    (weightOf W (now - goTruncate now W)).val ≤ 1 := by
  obtain ⟨he0, heW⟩ := elapsed_bounds now W hW
  set e := now - goTruncate now W with hedef
  have hwf : weightOf W e = GoFloat.frac (W - e) W := by
    unfold weightOf goDivInt
    rw [if_neg hW.ne']
  have hval : (weightOf W e).val = ((W - e : Int) : ℚ) / ((W : Int) : ℚ) := by
    rw [hwf]
    rfl
  have hWq : (0 : ℚ) < ((W : Int) : ℚ) := by exact_mod_cast hW
  have hsub : (0 : ℚ) ≤ ((W - e : Int) : ℚ) := by
    exact_mod_cast (by omega : (0 : Int) ≤ W - e)
  refine ⟨hwf, hval, ?_, ?_, ?_⟩
  · unfold effectiveCountOf
    rw [hwf]
    simp only [GoFloat.mulInt, GoFloat.toInt, GoFloat.val]
    rw [tdiv_floor_of_nonneg _ _ (mul_nonneg hp (by omega)) hW]
    congr 1
    congr 1
    push_cast
    ring
  · rw [hval]
    exact div_nonneg hsub hWq.le
  · rw [hval]
    rw [div_le_one hWq]
    exact_mod_cast (by omega : W - e ≤ W)

/-- C3 (witness): instantiated at `now = 25`, `W = 10`,
`currentCount = 1`, `prevCount = 3`. -/
theorem effectiveCount_formula_witness :
    (0 : Int) < 10 ∧ (0 : Int) ≤ 3 ∧
    (weightOf 10 (25 - goTruncate 25 10) =
        GoFloat.frac (10 - (25 - goTruncate 25 10)) 10 ∧
      (weightOf 10 (25 - goTruncate 25 10)).val =
        ((10 - (25 - goTruncate 25 10) : Int) : ℚ) / ((10 : Int) : ℚ) ∧
      effectiveCountOf 1 3 (weightOf 10 (25 - goTruncate 25 10)) =
        1 + ⌊(3 : ℚ) * (weightOf 10 (25 - goTruncate 25 10)).val⌋ ∧
      0 ≤ (weightOf 10 (25 - goTruncate 25 10)).val ∧
      (weightOf 10 (25 - goTruncate 25 10)).val ≤ 1) :=
  ⟨by decide, by decide, effectiveCount_formula 25 10 1 3 (by decide) (by decide)⟩

/-- C4: a successful slow-path check returns `Allowed ⇔ effectiveCount
≤ rate.Limit` and `Remaining = max(0, rate.Limit - effectiveCount)`;
hence `Remaining` is never negative and a denied result has
`Remaining = 0`. -/
theorem slowPath_decision (st st' : LimiterState) (now : Int) (key : String)
    (rate : Rate) (n : Int) (ws pws resetAt : Int) (ck : String)
    (r : Result) (prevCount : Int)
    (hprev : lookupRow st.store key (unixMilli pws) = some prevCount)
    (h : allowNSlow st none now key rate n ws pws resetAt ck = (.ok r, st')) :
    (r.allowed = true ↔
      effectiveCountOf ((lookupRow st.store key (unixMilli ws)).getD 0 + n)
        prevCount (weightOf rate.window (now - ws)) ≤ rate.limit) ∧
    r.remaining = max 0 (rate.limit -
      effectiveCountOf ((lookupRow st.store key (unixMilli ws)).getD 0 + n)
        prevCount (weightOf rate.window (now - ws))) ∧
    0 ≤ r.remaining ∧
    (r.allowed = false → r.remaining = 0) := by
  simp only [allowNSlow, sqlIncrementAndPeek] at h
  rw [hprev] at h
  simp only [Prod.mk.injEq] at h
  obtain ⟨h1, -⟩ := h
  rw [Except.ok.injEq] at h1
  subst h1
  simp only [decide_eq_true_eq, decide_eq_false_iff_not]
  refine ⟨trivial, ?_, ?_, ?_⟩
  · split <;> omega
  · split <;> omega
  · intro hna
    split <;> omega

/-- C4 (witness): a concrete denied slow-path check (`prevCount = 7`,
`Limit = 5`, at a window boundary). -/
theorem slowPath_decision_witness :
    lookupRow [("k", (1699999990000 : Int), (7 : Int))] "k"
        (unixMilli 1699999990000000000) = some 7 ∧
    allowNSlow ⟨[("k", 1699999990000, 7)], []⟩ none 1700000000000000000 "k"
        ⟨5, 10000000000⟩ 1 1700000000000000000 1699999990000000000
        1700000010000000000 "k:10000" =
      (.ok ⟨false, 5, 0, 1700000010000000000⟩,
       ⟨[("k", 1699999990000, 7), ("k", 1700000000000, 1)],
        [("k:10000", 1700000010000000000)]⟩) ∧
    ((Result.allowed ⟨false, 5, 0, 1700000010000000000⟩ = true ↔
        effectiveCountOf
          ((lookupRow [("k", (1699999990000 : Int), (7 : Int))] "k"
            (unixMilli 1700000000000000000)).getD 0 + 1) 7
          (weightOf 10000000000
            (1700000000000000000 - 1700000000000000000)) ≤ (5 : Int)) ∧
      Result.remaining ⟨false, 5, 0, 1700000010000000000⟩ =
        max 0 ((5 : Int) -
          effectiveCountOf
            ((lookupRow [("k", (1699999990000 : Int), (7 : Int))] "k"
              (unixMilli 1700000000000000000)).getD 0 + 1) 7
            (weightOf 10000000000
              (1700000000000000000 - 1700000000000000000))) ∧
      0 ≤ Result.remaining ⟨false, 5, 0, 1700000010000000000⟩ ∧
      (Result.allowed ⟨false, 5, 0, 1700000010000000000⟩ = false →
        Result.remaining ⟨false, 5, 0, 1700000010000000000⟩ = 0)) :=
  ⟨rfl, rfl,
    slowPath_decision ⟨[("k", 1699999990000, 7)], []⟩
      ⟨[("k", 1699999990000, 7), ("k", 1700000000000, 1)],
       [("k:10000", 1700000010000000000)]⟩
      1700000000000000000 "k" ⟨5, 10000000000⟩ 1 1700000000000000000
      1699999990000000000 1700000010000000000 "k:10000"
      ⟨false, 5, 0, 1700000010000000000⟩ 7 rfl rfl⟩

/-- C5: the blocked-cache behaviour of `AllowN` under
`cacheKey = key + ":" + windowDurationMillis`: (i) with a cached
`unblockAt` and `now` before it, the call returns `{Allowed: false,
Limit: rate.Limit, Remaining: 0, ResetAt: unblockAt}` and the limiter
state — store included — is untouched (no store operation); (ii) with
`now ≥ unblockAt` the entry is deleted and the call continues exactly
as the slow path on the shrunken cache; (iii) whenever a slow-path
check is denied, the cache entry is set to `resetAt`. -/
theorem blockedCache_fast_path (st : LimiterState) (dbErr : Option String)
    (now : Int) (key : String) (rate : Rate) (n : Int) (u : Int)
    (hu : cacheLoad st.blockedCache (cacheKeyOf key rate.window) = some u) :
    (now < u →
      allowN st dbErr now key rate n =
        (.ok ⟨false, rate.limit, 0, u⟩, st)) ∧
    (u ≤ now →
      allowN st dbErr now key rate n =
        allowNSlow
          { st with blockedCache :=
              cacheDelete st.blockedCache (cacheKeyOf key rate.window) }
          dbErr now key rate n (boundaries now rate.window).1
          (boundaries now rate.window).2.1 (boundaries now rate.window).2.2
          (cacheKeyOf key rate.window) ∧
      cacheLoad (cacheDelete st.blockedCache (cacheKeyOf key rate.window))
        (cacheKeyOf key rate.window) = none) ∧
    (∀ (st2 st2' : LimiterState) (r : Result) (ws pws ra : Int),
      allowNSlow st2 none now key rate n ws pws ra
          (cacheKeyOf key rate.window) = (.ok r, st2') →
      r.allowed = false →
      cacheLoad st2'.blockedCache (cacheKeyOf key rate.window) = some ra) := by
  refine ⟨?_, ?_, ?_⟩
  · intro hlt
    simp only [allowN, hu]
    rw [if_pos hlt]
  · intro hge
    refine ⟨?_, cacheLoad_cacheDelete _ _⟩
    simp only [allowN, hu]
    rw [if_neg (not_lt.mpr hge)]
  · intro st2 st2' r ws pws ra h hden
    cases hm : lookupRow st2.store key (unixMilli pws) with
    | none =>
      simp only [allowNSlow, sqlIncrementAndPeek] at h
      rw [hm] at h
      simp at h
    | some p =>
      simp only [allowNSlow, sqlIncrementAndPeek] at h
      rw [hm] at h
      simp only [Prod.mk.injEq, Except.ok.injEq] at h
      obtain ⟨h1, h2⟩ := h
      subst h1
      subst h2
      dsimp only at hden ⊢
      simp only [hden, Bool.false_eq_true, if_false]
      exact cacheLoad_cacheStore _ _ _

/-- C5 (witness): concrete cache state blocking key `k` with a 10 s
window until `1700000005000000000 ns`, checked at `now =
1700000000000000000 ns`. -/
theorem blockedCache_fast_path_witness :
    cacheLoad (LimiterState.blockedCache
        ⟨[], [("k:10000", 1700000005000000000)]⟩)
      (cacheKeyOf "k" (Rate.window ⟨5, 10000000000⟩)) =
      some 1700000005000000000 ∧
    ((1700000000000000000 < (1700000005000000000 : Int) →
      allowN ⟨[], [("k:10000", 1700000005000000000)]⟩ none
          1700000000000000000 "k" ⟨5, 10000000000⟩ 1 =
        (.ok ⟨false, Rate.limit ⟨5, 10000000000⟩, 0, 1700000005000000000⟩,
         ⟨[], [("k:10000", 1700000005000000000)]⟩)) ∧
    ((1700000005000000000 : Int) ≤ 1700000000000000000 →
      allowN ⟨[], [("k:10000", 1700000005000000000)]⟩ none
          1700000000000000000 "k" ⟨5, 10000000000⟩ 1 =
        allowNSlow
          { (⟨[], [("k:10000", 1700000005000000000)]⟩ : LimiterState) with
              blockedCache :=
                cacheDelete
                  (LimiterState.blockedCache
                    ⟨[], [("k:10000", 1700000005000000000)]⟩)
                  (cacheKeyOf "k" (Rate.window ⟨5, 10000000000⟩)) }
          none 1700000000000000000 "k" ⟨5, 10000000000⟩ 1
          (boundaries 1700000000000000000 (Rate.window ⟨5, 10000000000⟩)).1
          (boundaries 1700000000000000000 (Rate.window ⟨5, 10000000000⟩)).2.1
          (boundaries 1700000000000000000 (Rate.window ⟨5, 10000000000⟩)).2.2
          (cacheKeyOf "k" (Rate.window ⟨5, 10000000000⟩)) ∧
      cacheLoad
        (cacheDelete
          (LimiterState.blockedCache ⟨[], [("k:10000", 1700000005000000000)]⟩)
          (cacheKeyOf "k" (Rate.window ⟨5, 10000000000⟩)))
        (cacheKeyOf "k" (Rate.window ⟨5, 10000000000⟩)) = none) ∧
    (∀ (st2 st2' : LimiterState) (r : Result) (ws pws ra : Int),
      allowNSlow st2 none 1700000000000000000 "k" ⟨5, 10000000000⟩ 1
          ws pws ra (cacheKeyOf "k" (Rate.window ⟨5, 10000000000⟩)) =
        (.ok r, st2') →
      r.allowed = false →
      cacheLoad st2'.blockedCache
        (cacheKeyOf "k" (Rate.window ⟨5, 10000000000⟩)) = some ra)) :=
  ⟨rfl,
    blockedCache_fast_path ⟨[], [("k:10000", 1700000005000000000)]⟩ none
      1700000000000000000 "k" ⟨5, 10000000000⟩ 1 1700000005000000000 rfl⟩

/-- C1 (failing input): on a fresh key with no rows at all, the slow
path's statement creates the `(key, windowStart)` row with
`count = n`, but the previous-window peek subquery matches no row, so
the scalar subquery yields SQL NULL — the `COALESCE` sits *inside*
the subquery and never applies — and scanning NULL into the `int`
destination fails: `AllowN` returns an error instead of succeeding
with `prevCount = 0` as claimed (`rate = {Limit: 5, Window: 10 s}`,
`now = 1700000000000000000 ns`). -/
theorem allowN_fresh_key_errors :
    allowN ⟨[], []⟩ none 1700000000000000000 "k" ⟨5, 10000000000⟩ 1 =
      (.error ("cannot check rate limit: " ++ scanNullErr),
       ⟨[("k", 1700000000000, 1)], []⟩) := rfl

/-- C6 (failing input): for a fresh key with no existing counter rows
and `rate = {Limit: 5, Window: 10 s}`, the very first
`AllowN(key, rate, 1)` call does not return `Allowed = true,
Remaining = 4` as claimed: it fails with the NULL-scan error, because
no previous-window row exists yet. -/
theorem allowN_first_call_fails :
    (allowN ⟨[], []⟩ none 1800000000000000000 "api" ⟨5, 10000000000⟩ 1).1 =
      .error ("cannot check rate limit: " ++ scanNullErr) ∧
    (allowN ⟨[], []⟩ none 1800000000000000000 "api" ⟨5, 10000000000⟩ 1).1 ≠
      .ok ⟨true, 5, 4, 1800000010000000000⟩ := by
  refine ⟨rfl, ?_⟩
  intro h
  rw [show (allowN ⟨[], []⟩ none 1800000000000000000 "api"
      ⟨5, 10000000000⟩ 1).1 =
    .error ("cannot check rate limit: " ++ scanNullErr) from rfl] at h
  exact Except.noConfusion h

/-- C7 (failing input): a failed `AllowN` call is *not* always a no-op
toward the window accounting: on a fresh key the INSERT executes and
auto-commits on the pooled connection, then the client-side scan of
the NULL `prev_count` fails, so the call returns the wrapped error
*and* the stored count for the window has been increased by `n = 2`.
(For a transport-level store failure the call is a no-op, and the
error is wrapped with context and propagated, as the claim states —
see the model's `dbErr` branch of `allowNSlow`.) -/
theorem allowN_failed_call_counts :
    allowN ⟨[], []⟩ none 1900000000000000000 "job" ⟨5, 10000000000⟩ 2 =
      (.error ("cannot check rate limit: " ++ scanNullErr),
       ⟨[("job", 1900000000000, 2)], []⟩) ∧
    (∀ (st : LimiterState) (e : String) (now : Int) (key : String)
        (rate : Rate) (n : Int) (ws pws ra : Int) (ck : String),
      allowNSlow st (some e) now key rate n ws pws ra ck =
        (.error ("cannot check rate limit: " ++ e), st)) := by
  constructor
  · rfl
  · intro st e now key rate n ws pws ra ck
    rfl

/-- C10: `AllowN` validates none of its documented preconditions: with
`rate.Window = 0` the call is not rejected with a validation error —
it proceeds to the store (the counter row is incremented) and returns
an allowed `Result` — while the weight computation divides `0/0`,
producing the non-finite NaN, and the conversion
`int(float64(prevCount) * weight)` of that NaN feeds the
implementation-defined conversion result (`math.MinInt64` on amd64,
the value the model fixes as `goIntMin`) into `effectiveCount`, which
here becomes `4 + goIntMin`.  Concrete input: `key = "k"` holding a
row at the degenerate window, `n = 1`, `rate = {Limit: 5, Window: 0}`.
The `Remaining` field at this input is decided by Go's wrapping 64-bit
subtraction `rate.Limit - effectiveCount` (which overflows here; amd64
wraps it negative and the clamp yields `Remaining = 0`), a regime
where the model's unbounded-integer subtraction is not faithful, so
`Remaining` is existentially quantified rather than asserted; the
`Allowed`, `Limit` and `ResetAt` fields are computed from in-range
values and are asserted. -/
theorem allowN_no_window_validation :
    weightOf 0 (1700000000000000000 - goTruncate 1700000000000000000 0) =
      GoFloat.nan ∧
    (GoFloat.mulInt 3 GoFloat.nan).toInt = goIntMin ∧
    effectiveCountOf 4 3
      (weightOf 0 (1700000000000000000 - goTruncate 1700000000000000000 0)) =
      4 + goIntMin ∧
    (allowN ⟨[("k", 1700000000000, 3)], []⟩ none 1700000000000000000 "k"
        ⟨5, 0⟩ 1).2.store = [("k", 1700000000000, 4)] ∧
    (∃ remaining : Int,
      (allowN ⟨[("k", 1700000000000, 3)], []⟩ none 1700000000000000000 "k"
          ⟨5, 0⟩ 1).1 =
        .ok ⟨true, 5, remaining, 1700000000000000000⟩) :=
  ⟨rfl, rfl, rfl, rfl, ⟨9223372036854775809, rfl⟩⟩

/-- C2 (witness): instantiated at `now = 123456789 ns`, `W = 1000 ns`
(a window for which the zero-time offset is a multiple, so the
epoch-floor form applies). -/
theorem boundaries_formula_witness :
    (0 : Int) < 1000 ∧
    (boundaries 123456789 1000 =
      (123456789 - (123456789 + unixToInternalNs) % 1000,
       123456789 - (123456789 + unixToInternalNs) % 1000 - 1000,
       123456789 - (123456789 + unixToInternalNs) % 1000 + 1000) ∧
    (unixToInternalNs % 1000 = 0 →
      (boundaries 123456789 1000).1 = 1000 * ((123456789 : Int) / 1000))) :=
  ⟨by decide, boundaries_formula 123456789 1000 (by decide)⟩

/-- C8 (witness): a two-row table, cleaned with `olderThan = 0` at
`now = 10000000 ns` (cutoff 10 ms); both rows are older. -/
theorem cleanup_deletes_older_witness :
    (∀ r ∈ [("a", (5 : Int), (1 : Int)), ("b", 3, 4)],
      r.2.1 < unixMilli ((10000000 : Int) - 0) →
      r ∉ (cleanup ⟨[("a", 5, 1), ("b", 3, 4)], []⟩ 10000000 0).2.store) ∧
    (∀ r ∈ [("a", (5 : Int), (1 : Int)), ("b", 3, 4)],
      unixMilli ((10000000 : Int) - 0) ≤ r.2.1 →
      r ∈ (cleanup ⟨[("a", 5, 1), ("b", 3, 4)], []⟩ 10000000 0).2.store) ∧
    (∀ r ∈ (cleanup ⟨[("a", 5, 1), ("b", 3, 4)], []⟩ 10000000 0).2.store,
      r ∈ [("a", (5 : Int), (1 : Int)), ("b", 3, 4)]) ∧
    (cleanup ⟨[("a", 5, 1), ("b", 3, 4)], []⟩ 10000000 0).1 =
      (([("a", (5 : Int), (1 : Int)), ("b", 3, 4)].length : Int) -
       (((cleanup ⟨[("a", 5, 1), ("b", 3, 4)], []⟩ 10000000 0).2.store.length :
          Int))) ∧
    ((0 : Int) = 0 →
      (∀ r ∈ [("a", (5 : Int), (1 : Int)), ("b", 3, 4)],
        r.2.1 < unixMilli 10000000) →
      (cleanup ⟨[("a", 5, 1), ("b", 3, 4)], []⟩ 10000000 0).2.store = [] ∧
      (cleanup ⟨[("a", 5, 1), ("b", 3, 4)], []⟩ 10000000 0).1 =
        ([("a", (5 : Int), (1 : Int)), ("b", 3, 4)].length : Int)) :=
  cleanup_deletes_older ⟨[("a", 5, 1), ("b", 3, 4)], []⟩ 10000000 0
